import Mathlib

/-
Verification of the flow-assignment core of traffic_analysis.py: a shallow
embedding of the network model, the two solvers, the edge-load computation and
the social-cost evaluation, followed by theorems about the spec's claims.

Numbers are modelled as rationals.  Python run-time failures that the relevant
functions can hit (ZeroDivisionError from `n / len(paths)` when the path list
is empty, KeyError from `edge_flows[(u, v)]` or `G[u][v]` when an edge is
absent) are modelled with an explicit error type; every other computation is
total.  Python for-loops are modelled as structural recursions over the lists
they iterate.
-/

namespace Traffic

/-- Equality of Except values is decidable when it is so on both sides; core
does not provide this instance, and concrete evaluations below need it. -/
instance {e a : Type} [DecidableEq e] [DecidableEq a] : DecidableEq (Except e a)
  | .ok x, .ok y =>
    if h : x = y then .isTrue (by rw [h]) else .isFalse (by simp [h])
  | .error x, .error y =>
    if h : x = y then .isTrue (by rw [h]) else .isFalse (by simp [h])
  | .ok _, .error _ => .isFalse (by simp)
  | .error _, .ok _ => .isFalse (by simp)

/-- Python errors that the embedded functions can raise. -/
inductive PyError where
  | zeroDivision : PyError
  | keyError : PyError
deriving DecidableEq, Repr

/-- A directed edge, identified by its ordered pair of node ids. -/
abbrev Edge := Nat × Nat

/-- The data attached to an edge of the networkx graph: the optional cost
coefficients stored under keys a and b.  An absent coefficient corresponds to
`G[u][v].get(..., 0)` returning the default 0. -/
structure EdgeData where
  a : Option ℚ
  b : Option ℚ
deriving DecidableEq, Repr

/-- The networkx DiGraph restricted to what the core reads: its edge list with
per-edge data.  A DiGraph holds at most one edge per ordered pair, hence the
nodup invariant on the keys. -/
structure Graph where
  edges : List (Edge × EdgeData)
  nodupKeys : (edges.map Prod.fst).Nodup

/-- Python dict lookup on an association list: the first binding of the key,
if any. -/
def lookupKey {β : Type} : List (Edge × β) → Edge → Option β
  | [], _ => none
  | p :: rest, key => if p.1 = key then some p.2 else lookupKey rest key

/-- Models `{(u, v): 0 for u, v in G.edges()}`, the initial edge-flow dict of
flows_to_edge_flows (line 73) and of the total_cost closure (line 39). -/
def initFlows (G : Graph) : List (Edge × ℚ) :=
  G.edges.map (fun p => (p.1, 0))

/-! Embedding of flows_to_edge_flows (src/traffic_analysis.py lines 72-78). -/

/-- Models the statement `edge_flows[(u, v)] += f` (line 77): add f to the
binding of the key, raising KeyError when the key is absent. -/
def addFlow : List (Edge × ℚ) → Edge → ℚ → Except PyError (List (Edge × ℚ))
  | [], _, _ => .error .keyError
  | p :: rest, key, f =>
    if p.1 = key then .ok ((p.1, p.2 + f) :: rest)
    else (addFlow rest key f).map (fun m => p :: m)

/-- Models the inner loop `for i in range(len(path) - 1)` (lines 75-77) over
the list of consecutive edges of the path. -/
def pathLoop : List (Edge × ℚ) → List Edge → ℚ → Except PyError (List (Edge × ℚ))
  | m, [], _ => .ok m
  | m, e :: rest, f =>
    match addFlow m e f with
    | .ok m2 => pathLoop m2 rest f
    | .error err => .error err

/-- The inner loop applied to the consecutive-node pairs of a path. -/
def addPathFlow (m : List (Edge × ℚ)) (path : List Nat) (f : ℚ) :
    Except PyError (List (Edge × ℚ)) :=
  pathLoop m (path.zip path.tail) f

/-- Models the outer loop `for f, path in zip(flows, paths)` (line 74). -/
def edgeLoop : List (Edge × ℚ) → List (ℚ × List Nat) →
    Except PyError (List (Edge × ℚ))
  | m, [] => .ok m
  | m, fp :: rest =>
    match addPathFlow m fp.2 fp.1 with
    | .ok m2 => edgeLoop m2 rest
    | .error err => .error err

/-- Embedding of flows_to_edge_flows (lines 72-78): initialise every edge of G
to load 0, then for each (flow, path) pair produced by `zip(flows, paths)` add
the flow to every consecutive edge of the path. -/
def flows_to_edge_flows (G : Graph) (paths : List (List Nat)) (flows : List ℚ) :
    Except PyError (List (Edge × ℚ)) :=
  edgeLoop (initFlows G) (flows.zip paths)

/-! Embedding of compute_social_cost (lines 140-146). -/

/-- Models the loop `for (u, v), x in edge_flows.items()` (lines 142-145):
look each edge up in G (KeyError if absent), read coefficients a and b with
default 0 and accumulate `x * (a * x + b)`. -/
def costLoop (G : Graph) : ℚ → List (Edge × ℚ) → Except PyError ℚ
  | total, [] => .ok total
  | total, uvx :: rest =>
    match lookupKey G.edges uvx.1 with
    | some d => costLoop G (total + uvx.2 * (d.a.getD 0 * uvx.2 + d.b.getD 0)) rest
    | none => .error .keyError

/-- Embedding of compute_social_cost (lines 140-146). -/
def compute_social_cost (edge_flows : List (Edge × ℚ)) (G : Graph) :
    Except PyError ℚ :=
  costLoop G 0 edge_flows

/-! Embedding of the total_cost closure nested in assign_flow_social_optimum
(lines 37-54).  The source writes the edge-load loop and the cost loop out a
second time inline instead of calling the two functions above, so the
embedding repeats the loop definitions under tc names rather than reusing
them; claim C10 is about the equivalence of the two copies. -/

/-- Duplicate of addFlow as written inline on line 44. -/
def tc_addFlow : List (Edge × ℚ) → Edge → ℚ → Except PyError (List (Edge × ℚ))
  | [], _, _ => .error .keyError
  | p :: rest, key, f =>
    if p.1 = key then .ok ((p.1, p.2 + f) :: rest)
    else (tc_addFlow rest key f).map (fun m => p :: m)

/-- Duplicate of pathLoop as written inline on lines 41-44. -/
def tc_pathLoop : List (Edge × ℚ) → List Edge → ℚ →
    Except PyError (List (Edge × ℚ))
  | m, [], _ => .ok m
  | m, e :: rest, f =>
    match tc_addFlow m e f with
    | .ok m2 => tc_pathLoop m2 rest f
    | .error err => .error err

/-- Duplicate of edgeLoop as written inline on lines 40-44. -/
def tc_edgeLoop : List (Edge × ℚ) → List (ℚ × List Nat) →
    Except PyError (List (Edge × ℚ))
  | m, [] => .ok m
  | m, fp :: rest =>
    match tc_pathLoop m (fp.2.zip fp.2.tail) fp.1 with
    | .ok m2 => tc_edgeLoop m2 rest
    | .error err => .error err

/-- Duplicate of costLoop as written inline on lines 48-53. -/
def tc_costLoop (G : Graph) : ℚ → List (Edge × ℚ) → Except PyError ℚ
  | total, [] => .ok total
  | total, uvx :: rest =>
    match lookupKey G.edges uvx.1 with
    | some d =>
      tc_costLoop G (total + uvx.2 * (d.a.getD 0 * uvx.2 + d.b.getD 0)) rest
    | none => .error .keyError

/-- Embedding of the total_cost closure (lines 37-54): the duplicated
edge-load loop followed by the duplicated cost loop. -/
def total_cost (G : Graph) (paths : List (List Nat)) (flow_split : List ℚ) :
    Except PyError ℚ :=
  match tc_edgeLoop (initFlows G) (flow_split.zip paths) with
  | .error e => .error e
  | .ok edge_flows => tc_costLoop G 0 edge_flows

/-! The two solvers. -/

/-- Embedding of assign_flows_nash_equilibrium (lines 67-69):
`np.ones(len(paths)) * (n / len(paths))`, an equal split that ignores the
graph; `n / len(paths)` raises ZeroDivisionError when the path list is
empty. -/
def assign_flows_nash_equilibrium (G : Graph) (paths : List (List Nat))
    (n : ℚ) : Except PyError (List ℚ) :=
  if paths.length = 0 then .error .zeroDivision
  else .ok (List.replicate paths.length (n / (paths.length : ℚ)))

/-- Embedding of line 56 of assign_flow_social_optimum, the first statement
the function executes: `x0 = np.ones(len(paths)) * (n / len(paths))`, which
raises ZeroDivisionError when the path list is empty. -/
def socialOptimum_x0 (paths : List (List Nat)) (n : ℚ) :
    Except PyError (List ℚ) :=
  if paths.length = 0 then .error .zeroDivision
  else .ok (List.replicate paths.length (n / (paths.length : ℚ)))

/-- Embedding of line 64, `return res.x if res.success else None`: the value
assign_flow_social_optimum hands back given the success flag and the solution
vector of the scipy result. -/
def social_optimum_return (success : Bool) (x : List ℚ) : Option (List ℚ) :=
  if success then some x else none

/-- The feasible set handed to the scipy call on lines 58-63: one flow per
path, `bounds = [(0, n)] * len(paths)` and the equality constraint
`sum(x) - n = 0`. -/
def Feasible (n : ℚ) (k : Nat) (f : List ℚ) : Prop :=
  f.length = k ∧ (∀ x ∈ f, 0 ≤ x ∧ x ≤ n) ∧ f.sum = n

instance (n : ℚ) (k : Nat) (f : List ℚ) : Decidable (Feasible n k f) := by
  unfold Feasible; infer_instance

/-- Modelled from the spec: the scipy.optimize.minimize call on line 63 is an
external solver, not code of this repository, so its successful outcome is
modelled as an exact solution of the program the code hands it — f is a
minimizer of the total_cost objective over the feasible set given by the
code's bounds and equality constraint.  A run in which scipy instead reports
failure reaches the else branch of line 64, modelled by
social_optimum_return. -/
def IsSocialOptimum (G : Graph) (paths : List (List Nat)) (n : ℚ)
    (f : List ℚ) : Prop :=
  Feasible n paths.length f ∧
  ∃ c, total_cost G paths f = .ok c ∧
    ∀ g, Feasible n paths.length g →
      ∃ cg, total_cost G paths g = .ok cg ∧ c ≤ cg

/-! Path costs and the Wardrop condition, for the equilibrium claim. -/

/-- Load of an edge in an edge-load list, default 0 when absent (the
`edge_flows.get((u, v), 0)` convention). -/
def edgeLoad (loads : List (Edge × ℚ)) (e : Edge) : ℚ :=
  (lookupKey loads e).getD 0

/-- Coefficient a of an edge of G, default 0 when the attribute or the edge
is absent. -/
def aCoeff (G : Graph) (e : Edge) : ℚ :=
  match lookupKey G.edges e with
  | some d => d.a.getD 0
  | none => 0

/-- Coefficient b of an edge of G, default 0 when the attribute or the edge
is absent. -/
def bCoeff (G : Graph) (e : Edge) : ℚ :=
  match lookupKey G.edges e with
  | some d => d.b.getD 0
  | none => 0

/-- Modelled from the spec: the total cost of one path at given edge loads,
the sum of `a * x + b` over its consecutive edges using the final loads. -/
def pathCost (G : Graph) (loads : List (Edge × ℚ)) (p : List Nat) : ℚ :=
  ((p.zip p.tail).map (fun e => aCoeff G e * edgeLoad loads e + bCoeff G e)).sum

/-- Modelled from the spec: the Wardrop condition on a flow vector at given
edge loads — every path carrying flow above the tolerance has cost less than
or equal to every enumerated path's cost (hence equal to the minimum, which
it attains), and every path carrying zero flow has cost at least that of any
path attaining the minimum. -/
def WardropCondition (G : Graph) (paths : List (List Nat)) (flows : List ℚ)
    (loads : List (Edge × ℚ)) (tol : ℚ) : Prop :=
  ∀ pf ∈ paths.zip flows,
    (tol < pf.2 → ∀ q ∈ paths, pathCost G loads pf.1 ≤ pathCost G loads q) ∧
    (pf.2 = 0 → ∀ q ∈ paths,
      (∀ r ∈ paths, pathCost G loads q ≤ pathCost G loads r) →
      pathCost G loads q ≤ pathCost G loads pf.1)

/-! Concrete fixtures. -/

/-- A network with a single edge 0 to 1 of cost `1x + 0`. -/
def Gone : Graph :=
  ⟨[((0, 1), ⟨some 1, some 0⟩)], by decide⟩

/-- A three-node network: a direct edge 0 to 2 of constant cost 100, and a
two-edge route 0 to 1 to 2 of cost `1x` then 0 (absent coefficients). -/
def Gbr : Graph :=
  ⟨[((0, 2), ⟨none, some 100⟩), ((0, 1), ⟨some 1, none⟩), ((1, 2), ⟨none, none⟩)],
   by decide⟩

/-- The two simple paths of Gbr from 0 to 2. -/
def pathsBr : List (List Nat) := [[0, 2], [0, 1, 2]]

/-- The edge loads produced by the equal split of 20 vehicles on pathsBr. -/
def loadsBr : List (Edge × ℚ) := [((0, 2), 10), ((0, 1), 10), ((1, 2), 10)]

/-- A two-edge network in which the b coefficient of the first edge and both
coefficients of the second edge are absent, exercising the default-0
reading. -/
def Gmiss : Graph :=
  ⟨[((0, 1), ⟨some 2, none⟩), ((1, 2), ⟨none, none⟩)], by decide⟩

/-! Helper lemmas. -/

lemma zip_take_take {α β : Type} :
    ∀ (l1 : List α) (l2 : List β),
      l1.zip l2 = (l1.take l2.length).zip (l2.take l1.length) := by
  intro l1
  induction l1 with
  | nil => intro l2; simp
  | cons a t ih =>
    intro l2
    cases l2 with
    | nil => simp
    | cons b t2 => simp [ih t2]

lemma tc_addFlow_eq (key : Edge) (f : ℚ) :
    ∀ m : List (Edge × ℚ), tc_addFlow m key f = addFlow m key f := by
  intro m
  induction m with
  | nil => rfl
  | cons p rest ih => simp [tc_addFlow, addFlow, ih]

lemma tc_pathLoop_eq (f : ℚ) :
    ∀ (es : List Edge) (m : List (Edge × ℚ)),
      tc_pathLoop m es f = pathLoop m es f := by
  intro es
  induction es with
  | nil => intro m; rfl
  | cons e rest ih =>
    intro m
    rw [tc_pathLoop, pathLoop, tc_addFlow_eq]
    cases addFlow m e f with
    | ok m2 => exact ih m2
    | error err => rfl

lemma tc_edgeLoop_eq :
    ∀ (fps : List (ℚ × List Nat)) (m : List (Edge × ℚ)),
      tc_edgeLoop m fps = edgeLoop m fps := by
  intro fps
  induction fps with
  | nil => intro m; rfl
  | cons fp rest ih =>
    intro m
    rw [tc_edgeLoop, edgeLoop, addPathFlow, tc_pathLoop_eq]
    cases pathLoop m (fp.2.zip fp.2.tail) fp.1 with
    | ok m2 => exact ih m2
    | error err => rfl

lemma tc_costLoop_eq (G : Graph) :
    ∀ (ef : List (Edge × ℚ)) (total : ℚ),
      tc_costLoop G total ef = costLoop G total ef := by
  intro ef
  induction ef with
  | nil => intro total; rfl
  | cons uvx rest ih =>
    intro total
    rw [tc_costLoop, costLoop]
    cases lookupKey G.edges uvx.1 with
    | some d => exact ih _
    | none => rfl

lemma total_cost_eq_pipeline (G : Graph) (paths : List (List Nat))
    (flows : List ℚ) :
    total_cost G paths flows =
      Except.bind (flows_to_edge_flows G paths flows)
        (fun ef => compute_social_cost ef G) := by
  rw [total_cost, flows_to_edge_flows, tc_edgeLoop_eq]
  cases edgeLoop (initFlows G) (flows.zip paths) with
  | error e => rfl
  | ok ef =>
    show tc_costLoop G 0 ef = compute_social_cost ef G
    rw [tc_costLoop_eq, compute_social_cost]

/-! Claim theorems. -/

/-- C3: when the underlying optimizer reports non-convergence
(`res.success` false), assign_flow_social_optimum returns Python None — it
does not raise any error, and no OptimizationDidNotConvergeError class exists
anywhere in the code.  This theorem records the code's actual behaviour at
line 64, contradicting the claim. -/
theorem C3_none_on_nonconvergence (x : List ℚ) :
    social_optimum_return false x = none := rfl

/-- C4: invoked with an empty path list, both solvers crash with
ZeroDivisionError from `n / len(paths)` — neither raises
NoFeasiblePathsError, a class that does not exist in the code.  This theorem
records the code's actual behaviour, contradicting the claim. -/
theorem C4_empty_paths_zero_division (G : Graph) (n : ℚ) :
    assign_flows_nash_equilibrium G [] n = .error .zeroDivision ∧
    socialOptimum_x0 [] n = .error .zeroDivision :=
  ⟨rfl, rfl⟩

/-- C9: for every graph and non-empty path list, the equilibrium solver
returns the equal split `n / k` on each of the k paths, and its result does
not depend on the graph, hence not on any edge cost coefficient. -/
theorem C9_nash_equal_split (G G' : Graph) (paths : List (List Nat)) (n : ℚ)
    (hp : paths ≠ []) :
    assign_flows_nash_equilibrium G paths n =
      .ok (List.replicate paths.length (n / (paths.length : ℚ))) ∧
    assign_flows_nash_equilibrium G paths n =
      assign_flows_nash_equilibrium G' paths n := by
  have hk : paths.length ≠ 0 := by
    simpa [List.length_eq_zero] using hp
  exact ⟨by simp [assign_flows_nash_equilibrium, hk], rfl⟩

/-- Witness for C9 at a concrete input: 6 vehicles over a one-path list,
compared across the differently priced networks Gone and Gbr. -/
theorem C9_nash_equal_split_witness :
    ([[0, 1]] : List (List Nat)) ≠ [] ∧
    (assign_flows_nash_equilibrium Gone [[0, 1]] 6 =
      .ok (List.replicate ([[0, 1]] : List (List Nat)).length
        (6 / ((([[0, 1]] : List (List Nat)).length : Nat) : ℚ))) ∧
     assign_flows_nash_equilibrium Gone [[0, 1]] 6 =
      assign_flows_nash_equilibrium Gbr [[0, 1]] 6) :=
  ⟨by decide, C9_nash_equal_split Gone Gbr [[0, 1]] 6 (by decide)⟩

/-- C7 counterexample: called with two paths but a single flow,
flows_to_edge_flows returns an ordinary edge-load map — no
DimensionMismatchError, a class that does not exist in the code — and that
map is exactly the one obtained by processing only the first path: `zip`
silently dropped the second path. -/
theorem C7_counterexample :
    flows_to_edge_flows Gbr [[0, 1], [1, 2]] [5] =
      .ok [((0, 2), 0), ((0, 1), 5), ((1, 2), 0)] ∧
    flows_to_edge_flows Gbr [[0, 1], [1, 2]] [5] =
      flows_to_edge_flows Gbr [[0, 1]] [5] :=
  ⟨by with_unfolding_all rfl, by with_unfolding_all rfl⟩

/-- C7 amended: flows_to_edge_flows performs no length check; it pairs flows
with paths by `zip`, so it processes exactly the first
`min(len(paths), len(flows))` pairs and behaves identically on the inputs
truncated to each other's length. -/
theorem C7_amended_zip_truncates (G : Graph) (paths : List (List Nat))
    (flows : List ℚ) :
    flows_to_edge_flows G paths flows =
      flows_to_edge_flows G (paths.take flows.length)
        (flows.take paths.length) := by
  unfold flows_to_edge_flows
  rw [← zip_take_take]

/-- C10: the objective closure total_cost nested in assign_flow_social_optimum
computes, for matching-length inputs, exactly what the pipeline of
flows_to_edge_flows followed by compute_social_cost computes, including which
error is raised when one is: the duplicated loops are equivalent. -/
theorem C10_total_cost_matches_pipeline (G : Graph) (paths : List (List Nat))
    (flows : List ℚ) (h : flows.length = paths.length) :
    total_cost G paths flows =
      Except.bind (flows_to_edge_flows G paths flows)
        (fun ef => compute_social_cost ef G) :=
  total_cost_eq_pipeline G paths flows

/-- Witness for C10 at a concrete input: the equal split on the two paths of
Gbr. -/
theorem C10_total_cost_matches_pipeline_witness :
    ([(10 : ℚ), 10].length = pathsBr.length) ∧
    total_cost Gbr pathsBr [10, 10] =
      Except.bind (flows_to_edge_flows Gbr pathsBr [10, 10])
        (fun ef => compute_social_cost ef Gbr) :=
  ⟨rfl, C10_total_cost_matches_pipeline Gbr pathsBr [10, 10] rfl⟩

lemma costLoop_sum (G : Graph) :
    ∀ (ef : List (Edge × ℚ)) (acc : ℚ),
      (∀ p ∈ ef, (lookupKey G.edges p.1).isSome = true) →
      costLoop G acc ef =
        .ok (acc +
          (ef.map (fun p => p.2 * (aCoeff G p.1 * p.2 + bCoeff G p.1))).sum) := by
  intro ef
  induction ef with
  | nil => intro acc _; simp [costLoop]
  | cons p t ih =>
    intro acc h
    obtain ⟨d, hd⟩ :=
      Option.isSome_iff_exists.mp (h p (List.mem_cons_self p t))
    have ha : aCoeff G p.1 = d.a.getD 0 := by simp [aCoeff, hd]
    have hb : bCoeff G p.1 = d.b.getD 0 := by simp [bCoeff, hd]
    rw [costLoop]
    simp only [hd]
    rw [ih _ (fun q hq => h q (List.mem_cons_of_mem p hq))]
    rw [List.map_cons, List.sum_cons, ha, hb]
    congr 1
    ring

/-- C8: on any edge-load list whose keys are all edges of G,
compute_social_cost returns the sum over the entries of `x * (a * x + b)`,
where a and b are the edge's coefficients with an absent coefficient read as
0 — and never an error. -/
theorem C8_social_cost_formula (G : Graph) (ef : List (Edge × ℚ))
    (h : ∀ p ∈ ef, (lookupKey G.edges p.1).isSome = true) :
    compute_social_cost ef G =
      .ok ((ef.map (fun p => p.2 * (aCoeff G p.1 * p.2 + bCoeff G p.1))).sum) := by
  have := costLoop_sum G ef 0 h
  simpa [compute_social_cost] using this

/-- Witness for C8 at a concrete input on Gmiss, whose absent coefficients are
read as 0. -/
theorem C8_social_cost_formula_witness :
    (∀ p ∈ ([((0, 1), (3 : ℚ)), ((1, 2), 5)] : List (Edge × ℚ)),
      (lookupKey Gmiss.edges p.1).isSome = true) ∧
    compute_social_cost [((0, 1), 3), ((1, 2), 5)] Gmiss =
      .ok ((([((0, 1), (3 : ℚ)), ((1, 2), 5)] : List (Edge × ℚ)).map
        (fun p => p.2 * (aCoeff Gmiss p.1 * p.2 + bCoeff Gmiss p.1))).sum) :=
  ⟨by decide, C8_social_cost_formula Gmiss _ (by decide)⟩

lemma bind_eq_ok {e a b : Type} {x : Except e a} {f : a → Except e b} {v : b}
    (h : Except.bind x f = .ok v) : ∃ u, x = .ok u ∧ f u = .ok v := by
  cases x with
  | ok u => exact ⟨u, rfl, h⟩
  | error err => exact Except.noConfusion h

lemma equal_split_feasible (n : ℚ) (k : Nat) (hn : 0 < n) (hk : k ≠ 0) :
    Feasible n k (List.replicate k (n / (k : ℚ))) := by
  have hk1 : (1 : ℚ) ≤ (k : ℚ) := by
    exact_mod_cast Nat.one_le_iff_ne_zero.mpr hk
  have hkq : (k : ℚ) ≠ 0 := Nat.cast_ne_zero.mpr hk
  refine ⟨List.length_replicate k _, ?_, ?_⟩
  · intro x hx
    rw [List.eq_of_mem_replicate hx]
    exact ⟨div_nonneg hn.le (by linarith), div_le_self hn.le hk1⟩
  · rw [List.sum_replicate, nsmul_eq_mul, mul_comm, div_mul_cancel₀ _ hkq]

lemma feasible_one (n : ℚ) (f : List ℚ) (hf : Feasible n 1 f) : f = [n] := by
  obtain ⟨hlen, _, hsum⟩ := hf
  obtain ⟨x, rfl⟩ := List.length_eq_one.mp hlen
  simp only [List.sum_cons, List.sum_nil, add_zero] at hsum
  rw [hsum]

/-- The one-path instance Gone with 20 vehicles: the single feasible vector
[20] is the social optimum. -/
lemma isOpt_Gone : IsSocialOptimum Gone [[0, 1]] 20 [20] := by
  have hfeas : Feasible 20 ([[0, 1]] : List (List Nat)).length [20] := by
    refine ⟨rfl, ?_, by simp⟩
    intro x hx
    simp only [List.mem_singleton] at hx
    rw [hx]
    norm_num
  refine ⟨hfeas, 400, by with_unfolding_all rfl, ?_⟩
  intro g hg
  have hg1 : g = [20] := feasible_one 20 g hg
  rw [hg1]
  exact ⟨400, by with_unfolding_all rfl, le_refl 400⟩

/-- C2: with a non-empty path list and positive n, the equilibrium solver
returns one non-negative flow per path summing exactly to n, and any vector
the social-optimum solver returns on success likewise has one non-negative
flow per path and sums exactly to n (the code's bounds and equality
constraint). -/
theorem C2_flows_nonneg_sum_n (G : Graph) (paths : List (List Nat)) (n : ℚ)
    (f : List ℚ) (hn : 0 < n) (hp : paths ≠ [])
    (hf : IsSocialOptimum G paths n f) :
    (∃ g, assign_flows_nash_equilibrium G paths n = .ok g ∧
      g.length = paths.length ∧ (∀ x ∈ g, 0 ≤ x) ∧ g.sum = n) ∧
    f.length = paths.length ∧ (∀ x ∈ f, 0 ≤ x) ∧ f.sum = n := by
  have hk : paths.length ≠ 0 := by
    simpa [List.length_eq_zero] using hp
  have hfe := hf.1
  have hgfeas := equal_split_feasible n paths.length hn hk
  refine ⟨⟨List.replicate paths.length (n / (paths.length : ℚ)), ?_,
      hgfeas.1, fun x hx => (hgfeas.2.1 x hx).1, hgfeas.2.2⟩,
    hfe.1, fun x hx => (hfe.2.1 x hx).1, hfe.2.2⟩
  simp [assign_flows_nash_equilibrium, hk]

/-- Witness for C2 at a concrete input: the one-path network Gone with 20
vehicles and the optimal vector [20]. -/
theorem C2_flows_nonneg_sum_n_witness :
    (0 : ℚ) < 20 ∧ ([[0, 1]] : List (List Nat)) ≠ [] ∧
    IsSocialOptimum Gone [[0, 1]] 20 [20] ∧
    ((∃ g, assign_flows_nash_equilibrium Gone [[0, 1]] 20 = .ok g ∧
      g.length = ([[0, 1]] : List (List Nat)).length ∧
      (∀ x ∈ g, 0 ≤ x) ∧ g.sum = 20) ∧
    ([20] : List ℚ).length = ([[0, 1]] : List (List Nat)).length ∧
    (∀ x ∈ ([20] : List ℚ), 0 ≤ x) ∧ ([20] : List ℚ).sum = 20) :=
  ⟨by norm_num, by decide, isOpt_Gone,
    C2_flows_nonneg_sum_n Gone [[0, 1]] 20 [20] (by norm_num) (by decide)
      isOpt_Gone⟩

/-- C6: when exactly one path was enumerated, the equilibrium solver returns
[n] and any vector the social-optimum solver returns on success is [n],
whatever the cost coefficients of the graph are. -/
theorem C6_single_path_gets_all (G : Graph) (paths : List (List Nat)) (n : ℚ)
    (f : List ℚ) (hp : paths.length = 1) (hf : IsSocialOptimum G paths n f) :
    assign_flows_nash_equilibrium G paths n = .ok [n] ∧ f = [n] := by
  constructor
  · rw [assign_flows_nash_equilibrium, hp]
    norm_num
  · exact feasible_one n f (hp ▸ hf.1)

/-- Witness for C6 at a concrete input: the one-path network Gone with 20
vehicles. -/
theorem C6_single_path_gets_all_witness :
    ([[0, 1]] : List (List Nat)).length = 1 ∧
    IsSocialOptimum Gone [[0, 1]] 20 [20] ∧
    (assign_flows_nash_equilibrium Gone [[0, 1]] 20 = .ok [20] ∧
      ([20] : List ℚ) = [20]) :=
  ⟨rfl, isOpt_Gone,
    C6_single_path_gets_all Gone [[0, 1]] 20 [20] rfl isOpt_Gone⟩

/-- C5: the social cost of any vector the social-optimum solver returns on
success is at most the social cost of the equilibrium solver's vector, both
measured by compute_social_cost on the edge loads that
flows_to_edge_flows derives. -/
theorem C5_social_cost_le_nash (G : Graph) (paths : List (List Nat)) (n : ℚ)
    (f : List ℚ) (hn : 0 < n) (hf : IsSocialOptimum G paths n f) :
    ∃ g efOpt efNash cOpt cNash,
      assign_flows_nash_equilibrium G paths n = .ok g ∧
      flows_to_edge_flows G paths f = .ok efOpt ∧
      compute_social_cost efOpt G = .ok cOpt ∧
      flows_to_edge_flows G paths g = .ok efNash ∧
      compute_social_cost efNash G = .ok cNash ∧
      cOpt ≤ cNash := by
  obtain ⟨hfe, c, hc, hmin⟩ := hf
  have hk : paths.length ≠ 0 := by
    intro h0
    have hlen := hfe.1
    rw [h0, List.length_eq_zero] at hlen
    have hsum := hfe.2.2
    rw [hlen, List.sum_nil] at hsum
    exact (ne_of_gt hn) hsum.symm
  have hgfeas := equal_split_feasible n paths.length hn hk
  obtain ⟨cg, hcg, hle⟩ :=
    hmin (List.replicate paths.length (n / (paths.length : ℚ))) hgfeas
  have hpf := (total_cost_eq_pipeline G paths f).symm.trans hc
  obtain ⟨efOpt, hefO, hcO⟩ := bind_eq_ok hpf
  have hpg := (total_cost_eq_pipeline G paths
    (List.replicate paths.length (n / (paths.length : ℚ)))).symm.trans hcg
  obtain ⟨efNash, hefN, hcN⟩ := bind_eq_ok hpg
  refine ⟨List.replicate paths.length (n / (paths.length : ℚ)),
    efOpt, efNash, c, cg, ?_, hefO, hcO, hefN, hcN, hle⟩
  simp [assign_flows_nash_equilibrium, hk]

/-- Witness for C5 at a concrete input: the one-path network Gone with 20
vehicles, where both solvers produce cost 400. -/
theorem C5_social_cost_le_nash_witness :
    (0 : ℚ) < 20 ∧ IsSocialOptimum Gone [[0, 1]] 20 [20] ∧
    (∃ g efOpt efNash cOpt cNash,
      assign_flows_nash_equilibrium Gone [[0, 1]] 20 = .ok g ∧
      flows_to_edge_flows Gone [[0, 1]] [20] = .ok efOpt ∧
      compute_social_cost efOpt Gone = .ok cOpt ∧
      flows_to_edge_flows Gone [[0, 1]] g = .ok efNash ∧
      compute_social_cost efNash Gone = .ok cNash ∧
      cOpt ≤ cNash) :=
  ⟨by norm_num, isOpt_Gone,
    C5_social_cost_le_nash Gone [[0, 1]] 20 [20] (by norm_num) isOpt_Gone⟩

/-- C1: the equilibrium solver is an equal split that ignores costs, and its
output violates the Wardrop condition on a concrete network: with 20 vehicles
on Gbr both paths carry flow 10, far above the 1e-6 tolerance, yet at the
resulting loads the direct path costs 100 while the two-edge path costs 10,
so a used path does not attain the minimum cost. -/
theorem C1_equal_split_violates_wardrop :
    assign_flows_nash_equilibrium Gbr pathsBr 20 = .ok [10, 10] ∧
    flows_to_edge_flows Gbr pathsBr [10, 10] = .ok loadsBr ∧
    pathCost Gbr loadsBr [0, 2] = 100 ∧
    pathCost Gbr loadsBr [0, 1, 2] = 10 ∧
    ¬ WardropCondition Gbr pathsBr [10, 10] loadsBr (1 / 1000000) := by
  have hc1 : pathCost Gbr loadsBr [0, 2] = 100 := by with_unfolding_all rfl
  have hc2 : pathCost Gbr loadsBr [0, 1, 2] = 10 := by with_unfolding_all rfl
  refine ⟨by with_unfolding_all rfl, by with_unfolding_all rfl, hc1, hc2, ?_⟩
  intro h
  have h2 := (h ([0, 2], 10) (by simp [pathsBr])).1 (by norm_num) [0, 1, 2]
    (by simp [pathsBr])
  rw [hc1, hc2] at h2
  norm_num at h2

end Traffic
